import Mathlib

/-!
Shallow embedding of `peer_graph.py`: a peer-connectivity registry
(`Peer`, built on a process-wide `Cache_Singleton`), a breadth-first
traversal over an adjacency-list graph (`Graph_BFS`), and shortest-path
routines (`Graph_Shortest_Path`).

Python runtime behaviour is modelled explicitly:
- a Python `dict` is an insertion-ordered association list;
- a Python `set` is a `Finset String` (unordered, duplicate-free);
- an operation that can raise returns `Except PyExc _`, and a mutating
  operation that can raise mid-loop returns the partially mutated state
  together with `Option PyExc` (Python exceptions do not roll back
  mutations already performed).
-/

/-- Python exceptions that the embedded code can raise.  Each constructor
is commented with the concrete Python exception and message it stands for. -/
inductive PyExc where
  /-- `KeyError`, e.g. from `set.remove(x)` when `x` is absent, or from
  indexing a dict with a missing key. -/
  | keyError : PyExc
  /-- `AttributeError`, e.g. calling `.append` on a `set` object
  (a Python `set` has `add`, not `append`). -/
  | attributeError : PyExc
  /-- `TypeError`, e.g. calling a function with the wrong number of
  positional arguments. -/
  | typeError : PyExc
  /-- `NameError`, e.g. referring to a name (such as `deque`) that was
  never imported or defined. -/
  | nameError : PyExc
  /-- `IndexError`, from indexing a list outside its range. -/
  | indexError : PyExc
  /-- `Exception("Cannot connect to self")`, raised by `Peer.connect`. -/
  | cannotConnectToSelf : PyExc
  /-- `Exception("Too many connections n > {N}")`, raised by `Peer.connect`. -/
  | tooManyConnections : PyExc
  /-- `Exception("Cannot send message to self")`, raised by `Peer.send_msg`. -/
  | cannotSendToSelf : PyExc
  deriving DecidableEq, Repr

/-- Lookup in a Python dict modelled as an insertion-ordered association
list: `d[k]` / `k in d` consult the first (and, for a real dict, only)
binding of the key. -/
def alookup {κ α : Type} [DecidableEq κ] : List (κ × α) → κ → Option α
  | [], _ => none
  | (k, v) :: rest, key => if k = key then some v else alookup rest key

/-- Update the value bound to a key in place, preserving insertion order
(Python mutates the value object behind `d[k]` without moving the key). -/
def aupdate {κ α : Type} [DecidableEq κ] (d : List (κ × α)) (key : κ) (f : α → α) :
    List (κ × α) :=
  d.map fun p => if p.1 = key then (p.1, f p.2) else p

namespace Peer

/-- State of the `Peer` registry: `self.N` (max graph order, constructor
default 1024) and `self._peers`, a dict from peer id to its record
`{"connected": set()}`.  The record holds a single field, so each dict
value is modelled directly as the connected set (a Python `set` of ids,
hence a `Finset String`). -/
structure State where
  N : Nat
  peers : List (String × Finset String)
  deriving DecidableEq

/-- State of a freshly initialised registry: `__init__` sets `self.N = N`
and `self._peers = {}`. -/
def initState (N : Nat) : State :=
  { N := N, peers := [] }

/-- Python `Peer.isonline`: `id in self._peers`. -/
def isonline (st : State) (id : String) : Bool :=
  (alookup st.peers id).isSome

/-- Python `Peer.all_online`: `list(self._peers.keys())`, in insertion order. -/
def all_online (st : State) : List String :=
  st.peers.map (·.1)

/-- Python `Peer.num_connected`: `len(self._peers[id]["connected"])`;
raises `KeyError` when `id` is not a key of `self._peers`. -/
def num_connected (st : State) (id : String) : Except PyExc Nat :=
  match alookup st.peers id with
  | some c => .ok c.card
  | none => .error .keyError

/-- Membership test `id_to in self._peers[id]["connected"]`, `false` when
`id` is not registered: the connected-set relation of the registry that
the symmetry invariant speaks about. -/
def inConnected (st : State) (id id_to : String) : Bool :=
  match alookup st.peers id with
  | some c => decide (id_to ∈ c)
  | none => false

/-- Python `Peer.set_online`: if `id not in self._peers`, bind it to
`{"connected": set()}` (`{*()}` is the empty set); otherwise do nothing.
A new dict key is appended in insertion order.  Never raises. -/
def set_online (st : State) (id : String) : State :=
  if (alookup st.peers id).isSome then st
  else { st with peers := st.peers ++ [(id, ∅)] }

/-- Loop body of `Peer.set_offline` after the pop: for each remaining key
`k` in order, `self._peers[k]["connected"].remove(id)` inside
`try ... except ValueError: pass`.  On a Python `set`, `remove` raises
`KeyError` (not `ValueError`) when the element is absent, so that
exception escapes the `except` clause and aborts the loop, leaving the
entries already visited mutated and the rest untouched. -/
def removeLoop : List (String × Finset String) → String →
    List (String × Finset String) × Option PyExc
  | [], _ => ([], none)
  | (k, c) :: rest, id =>
    if id ∈ c then
      let r := removeLoop rest id
      ((k, c.erase id) :: r.1, r.2)
    else
      ((k, c) :: rest, some .keyError)

/-- Python `Peer.set_offline`: if `id in self._peers`, pop the binding
and then run `removeLoop` over the remaining entries.  Returns the
(possibly partially mutated) state and the escaped exception, if any. -/
def set_offline (st : State) (id : String) : State × Option PyExc :=
  if (alookup st.peers id).isSome then
    ({ st with peers := (removeLoop (st.peers.filter fun p => p.1 ≠ id) id).1 },
     (removeLoop (st.peers.filter fun p => p.1 ≠ id) id).2)
  else
    (st, none)

/-- Python `Peer.connect`.  Raises on self-connection; returns `False`
when either id is not online; returns `True` immediately when the edge
already exists; raises `Too many connections` when either side is at or
above `self.N - 1`; otherwise executes
`self._peers[id_from]["connected"].append(id_to)`, which raises
`AttributeError` because the connected collection is a `set` and a
Python `set` has no `append` method (no state is mutated). -/
def connect (st : State) (id_from id_to : String) :
    Except PyExc (Bool × State) :=
  if id_from = id_to then
    .error .cannotConnectToSelf
  else
    match alookup st.peers id_from, alookup st.peers id_to with
    | some cFrom, some cTo =>
      if id_to ∈ cFrom then
        .ok (true, st)
      else if cFrom.card < st.N - 1 ∧ cTo.card < st.N - 1 then
        .error .attributeError
      else
        .error .tooManyConnections
    | some _, none => .ok (false, st)
    | none, some _ => .ok (false, st)
    | none, none => .ok (false, st)

/-- Python `Peer.send_msg`: raises on self-send; otherwise evaluates
`self.connect(id_from, id_to, msg)`.  `connect` accepts exactly two ids
besides `self`, so passing the third argument `msg` raises `TypeError`
before the body of `connect` runs; no message is ever handed to the
transport (the `print` on the success path is unreachable). -/
def send_msg (st : State) (id_from id_to : String) (msg : String) :
    Except PyExc Unit :=
  if id_from = id_to then
    .error .cannotSendToSelf
  else
    .error .typeError

end Peer

/-- Registry operations a caller can issue, for reasoning about
arbitrary operation sequences. -/
inductive Op where
  | setOnline (id : String) : Op
  | setOffline (id : String) : Op
  | connect (a b : String) : Op
  deriving DecidableEq, Repr

/-- Apply one operation to the registry state.  When the operation raises,
the state it leaves behind is kept (Python mutations persist across an
exception): `set_offline` keeps its partially mutated state, and every
raising path of `connect` raises before mutating anything, so the prior
state is kept. -/
def applyOp (st : Peer.State) (op : Op) : Peer.State :=
  match op with
  | .setOnline id => Peer.set_online st id
  | .setOffline id => (Peer.set_offline st id).1
  | .connect a b =>
    match Peer.connect st a b with
    | .ok r => r.2
    | .error _ => st

/-- Run a sequence of operations from a state. -/
def runOps (st : Peer.State) (ops : List Op) : Peer.State :=
  ops.foldl applyOp st

namespace Graph_BFS

/-- Python `self.graph`, a `defaultdict(list)` from node id to adjacency
list, modelled as an insertion-ordered association list with `Nat` node
ids (the BFS code indexes a Python list by node id, so ids must at least
be integers; string ids would raise `TypeError` immediately). -/
abbrev Graph : Type := List (Nat × List Nat)

/-- Python `Graph_BFS.addEdge(u, v)`: `self.graph[u].append(v)`.  The
`defaultdict` creates the binding `u -> []` on first access, then the
append mutates that list in place. -/
def addEdge (g : Graph) (u v : Nat) : Graph :=
  match alookup g u with
  | some _ => aupdate g u (fun l => l ++ [v])
  | none => g ++ [(u, [v])]

/-- Python `self.graph[s]` inside `BFS`: `defaultdict` indexing returns the
bound adjacency list, inserting `s -> []` first when the key is absent. -/
def defaultGet (g : Graph) (s : Nat) : Graph × List Nat :=
  match alookup g s with
  | some l => (g, l)
  | none => (g ++ [(s, [])], [])

/-- Inner `for i in self.graph[s]` loop of `BFS`: for each neighbour `i`,
read `visited[i]` (raising `IndexError` when `i` is outside the table,
Python list indexing) and, when it is `False`, enqueue `i` and mark it
visited. -/
def visitNeighbors (visited : List Bool) (queue : List Nat) :
    List Nat → Except PyExc (List Bool × List Nat)
  | [] => .ok (visited, queue)
  | i :: rest =>
    if h : i < visited.length then
      if visited.get ⟨i, h⟩ then visitNeighbors visited queue rest
      else visitNeighbors (visited.set i true) (queue ++ [i]) rest
    else .error .indexError

theorem countFalse_set_true (l : List Bool) (i : Nat) (h : i < l.length)
    (hf : l.get ⟨i, h⟩ = false) :
    (l.set i true).count false < l.count false := by
  induction l generalizing i with
  | nil => simp at h
  | cons b t ih =>
    cases i with
    | zero =>
      simp only [List.get] at hf
      subst hf
      simp [List.set, List.count_cons]
    | succ j =>
      simp only [List.length_cons, Nat.succ_lt_succ_iff] at h
      simp only [List.get] at hf
      have := ih j h hf
      simp only [List.set, List.count_cons]
      omega

theorem visitNeighbors_measure (neigh : List Nat) (visited : List Bool)
    (queue : List Nat) (vq : List Bool × List Nat)
    (h : visitNeighbors visited queue neigh = .ok vq) :
    vq.1.count false < visited.count false ∨ (vq.1 = visited ∧ vq.2 = queue) := by
  induction neigh generalizing visited queue with
  | nil =>
    simp only [visitNeighbors] at h
    cases h
    right
    exact ⟨rfl, rfl⟩
  | cons i rest ih =>
    simp only [visitNeighbors] at h
    split at h
    · rename_i hi
      split at h
      · exact ih visited queue h
      · rename_i hget
        have hfalse : visited.get ⟨i, hi⟩ = false := by simpa using hget
        have hdec := countFalse_set_true visited i hi hfalse
        rcases ih _ _ h with hlt | ⟨hv, _⟩
        · exact Or.inl (lt_trans hlt hdec)
        · exact Or.inl (hv ▸ hdec)
    · cases h

/-- Outer `while queue:` loop of `BFS`: pop the head, record it in the
printed output, then process its adjacency list.  Terminates because an
id is enqueued only when its `visited` entry flips from `False` to
`True` and the length of `visited` never changes, so the measure (number
of `False` entries, queue length) decreases lexicographically. -/
def bfsLoop (g : Graph) (visited : List Bool) (queue : List Nat)
    (out : List Nat) : Except PyExc (List Nat) :=
  match queue with
  | [] => .ok out
  | s :: rest =>
    let gn := defaultGet g s
    match h : visitNeighbors visited rest gn.2 with
    | .ok vq => bfsLoop gn.1 vq.1 vq.2 (out ++ [s])
    | .error e => .error e
termination_by (visited.count false, queue.length)
decreasing_by
  rcases visitNeighbors_measure _ _ _ _ h with hlt | ⟨hv, hq⟩
  · exact Prod.Lex.left _ _ hlt
  · rw [hv, hq]
    exact Prod.Lex.right _ (by simp)

/-- Python `Graph_BFS.BFS(s)`: `visited = [False] * len(self.graph)` sizes
the visited table by the number of dict keys, and `visited[s] = True`
then indexes it by the node id itself, raising `IndexError` whenever `s`
is at least the number of keys.  Dequeued ids are printed in order; the
returned list models that printed sequence. -/
def BFS (g : Graph) (s : Nat) : Except PyExc (List Nat) :=
  let visited := List.replicate g.length false
  if s < visited.length then
    bfsLoop g (visited.set s true) [s] []
  else
    .error .indexError

end Graph_BFS

namespace Graph_Shortest_Path

/-- Python `Graph_Shortest_Path.__init__(d)` with a falsy `d`: the fixed
example adjacency dict written out in the source. -/
def exampleGraph : List (String × List String) :=
  [("A", ["B", "C"]), ("B", ["C", "D"]), ("C", ["D"]),
   ("D", ["C"]), ("E", ["F"]), ("F", ["C"])]

/-- Python `Graph_Shortest_Path.find_shortest_path(start, end)`.  Its
first statement `dist = {start: [start]}` succeeds; its second,
`q = deque(start)`, raises `NameError` because the module imports only
`defaultdict` from `collections` and `deque` is never imported or
defined, so the function raises unconditionally on every input and never
produces a path.  (The documentation comment above it in the source
expects `find_shortest_path(graph, "A", "D")` to yield `["A", "B", "D"]`.) -/
def find_shortest_path (graph : List (String × List String))
    (start finish : String) : Except PyExc (Option (List String)) :=
  .error .nameError

end Graph_Shortest_Path

namespace Cache_Singleton

/-- Python object representing the `Peer` registry: its object identity
(`id(obj)`) together with the current values of its attributes. -/
structure PeerObj where
  objId : Nat
  st : Peer.State
  deriving DecidableEq

/-- Class attribute `Cache_Singleton._instance`: the cached shared object,
`None` until the first construction. -/
structure World where
  inst : Option PeerObj
  deriving DecidableEq

/-- Python `Peer(...)`, where `args` is `none` for the argumentless call
`Peer()` and `some n` for `Peer(n)`.  `type.__call__` first runs
`Cache_Singleton.__new__`: when an instance is already cached it is
returned as-is, without consulting `object.__new__`; otherwise
`super().__new__(cls, *args, **kwargs)` forwards the call-site arguments
to `object.__new__`, which raises `TypeError` whenever any argument was
forwarded (CPython rejects excess arguments to `object.__new__` because
`__new__` is overridden), and the raise happens before the assignment to
`cls._instance`, so the world is unchanged — only the argumentless
`Peer()` can perform the first construction (allocating the single
object, modelled with object id 0).  When `__new__` returns the cached
or fresh object, `Peer.__init__` runs unconditionally on it, setting
`self.N` to the explicit argument (default 1024) and `self._peers = {}`,
discarding any previous registry contents. -/
def constructPeer (w : World) (args : Option Nat) : World × Except PyExc PeerObj :=
  match w.inst with
  | some p =>
    ({ inst := some { objId := p.objId, st := Peer.initState (args.getD 1024) } },
     .ok { objId := p.objId, st := Peer.initState (args.getD 1024) })
  | none =>
    match args with
    | some _ => (w, .error .typeError)
    | none =>
      ({ inst := some { objId := 0, st := Peer.initState 1024 } },
       .ok { objId := 0, st := Peer.initState 1024 })

end Cache_Singleton

instance {e a : Type} [DecidableEq e] [DecidableEq a] : DecidableEq (Except e a)
  | .error x, .error y =>
    if h : x = y then .isTrue (by rw [h]) else .isFalse (fun hc => by cases hc; exact h rfl)
  | .error _, .ok _ => .isFalse (fun hc => by cases hc)
  | .ok _, .error _ => .isFalse (fun hc => by cases hc)
  | .ok x, .ok y =>
    if h : x = y then .isTrue (by rw [h]) else .isFalse (fun hc => by cases hc; exact h rfl)

/-- Invariant of the registry on which the symmetry and degree claims
rest: every connected set is empty.  It holds initially and is preserved
by every operation, because the only code path of `connect` that would
insert into a connected set raises `AttributeError` before mutating. -/
def AllEmpty (st : Peer.State) : Prop :=
  ∀ p ∈ st.peers, p.2 = (∅ : Finset String)

theorem alookup_eq_some_mem {κ α : Type} [DecidableEq κ] (l : List (κ × α)) (key : κ)
    (v : α) (h : alookup l key = some v) : (key, v) ∈ l := by
  induction l with
  | nil => simp [alookup] at h
  | cons p rest ih =>
    obtain ⟨k, w⟩ := p
    simp only [alookup] at h
    split at h
    · rename_i hk
      cases h
      subst hk
      exact List.mem_cons_self _ _
    · exact List.mem_cons_of_mem _ (ih h)

theorem alookup_append_singleton_of_none {κ α : Type} [DecidableEq κ]
    (l : List (κ × α)) (key : κ) (v : α) (h : alookup l key = none) :
    alookup (l ++ [(key, v)]) key = some v := by
  induction l with
  | nil => simp [alookup]
  | cons p rest ih =>
    obtain ⟨k, w⟩ := p
    simp only [alookup] at h ⊢
    split at h
    · cases h
    · rename_i hk
      rw [if_neg hk]
      exact ih h

theorem allEmpty_lookup {st : Peer.State} (h : AllEmpty st) {a : String}
    {c : Finset String} (hc : alookup st.peers a = some c) : c = ∅ :=
  h (a, c) (alookup_eq_some_mem _ _ _ hc)

theorem removeLoop_allEmpty (ps : List (String × Finset String)) (id : String)
    (h : ∀ p ∈ ps, p.2 = (∅ : Finset String)) :
    ∀ q ∈ (Peer.removeLoop ps id).1, q.2 = (∅ : Finset String) := by
  cases ps with
  | nil =>
    intro q hq
    simp [Peer.removeLoop] at hq
  | cons p rest =>
    obtain ⟨k, c⟩ := p
    have hc : c = ∅ := h (k, c) (List.mem_cons_self _ _)
    simp only [Peer.removeLoop]
    split
    · rename_i hin
      rw [hc] at hin
      exact absurd hin (Finset.not_mem_empty id)
    · intro q hq
      exact h q hq

theorem set_offline_allEmpty (st : Peer.State) (id : String) (h : AllEmpty st) :
    AllEmpty (Peer.set_offline st id).1 := by
  unfold Peer.set_offline
  split
  · intro q hq
    exact removeLoop_allEmpty _ id
      (fun p hp => h p (List.mem_of_mem_filter hp)) q hq
  · exact h

theorem connect_ok_state (st : Peer.State) (a b : String) (r : Bool × Peer.State)
    (h : Peer.connect st a b = .ok r) : r.2 = st := by
  unfold Peer.connect at h
  split at h
  · exact Except.noConfusion h
  · split at h
    · split at h
      · injection h with h1
        rw [← h1]
      · split at h
        · exact Except.noConfusion h
        · exact Except.noConfusion h
    · injection h with h1
      rw [← h1]
    · injection h with h1
      rw [← h1]
    · injection h with h1
      rw [← h1]

theorem applyOp_allEmpty (st : Peer.State) (op : Op) (h : AllEmpty st) :
    AllEmpty (applyOp st op) := by
  cases op with
  | setOnline id =>
    simp only [applyOp, Peer.set_online]
    split
    · exact h
    · intro q hq
      rcases List.mem_append.mp hq with hq | hq
      · exact h q hq
      · simp only [List.mem_singleton] at hq
        rw [hq]
  | setOffline id => exact set_offline_allEmpty st id h
  | connect a b =>
    simp only [applyOp]
    split
    · rename_i r heq
      rw [connect_ok_state st a b r heq]
      exact h
    · exact h

theorem runOps_allEmpty (ops : List Op) (st : Peer.State) (h : AllEmpty st) :
    AllEmpty (runOps st ops) := by
  induction ops generalizing st with
  | nil => exact h
  | cons op rest ih => exact ih _ (applyOp_allEmpty st op h)

theorem runOps_init_allEmpty (N : Nat) (ops : List Op) :
    AllEmpty (runOps (Peer.initState N) ops) :=
  runOps_allEmpty ops (Peer.initState N) (fun _ hp => by cases hp)

theorem inConnected_of_allEmpty (st : Peer.State) (h : AllEmpty st)
    (a b : String) : Peer.inConnected st a b = false := by
  unfold Peer.inConnected
  split
  · rename_i c hc
    rw [allEmpty_lookup h hc]
    simp
  · rfl

theorem connect_ok_true_elim (st st2 : Peer.State) (a b : String)
    (h : Peer.connect st a b = .ok (true, st2)) :
    st2 = st ∧ a ≠ b ∧
      ∃ cF cT, alookup st.peers a = some cF ∧ alookup st.peers b = some cT ∧ b ∈ cF := by
  unfold Peer.connect at h
  split at h
  · exact Except.noConfusion h
  · rename_i hab
    split at h
    · rename_i cF cT hF hT
      split at h
      · rename_i hmem
        injection h with h1
        injection h1 with hb hs
        exact ⟨hs.symm, hab, cF, cT, hF, hT, hmem⟩
      · split at h
        · exact Except.noConfusion h
        · exact Except.noConfusion h
    · injection h with h1
      injection h1 with hb hs
      cases hb
    · injection h with h1
      injection h1 with hb hs
      cases hb
    · injection h with h1
      injection h1 with hb hs
      cases hb

/-- Claim C1: in a registry state where both ids are online, distinct, not
already connected and both below the degree cap, `connect` is claimed to
insert each id into the connected set of the other and return success.
The code instead raises `AttributeError` at
`self._peers[id_from]["connected"].append(id_to)`, because the connected
collection is a Python `set`, which has no `append` method; no state is
mutated and no success is returned.  Evaluated here on the smallest such
state, reached by `set_online("A"); set_online("B")` from a fresh
registry with the default `N = 1024`. -/
theorem C1_connect_raises_attributeError :
    Peer.connect (runOps (Peer.initState 1024) [Op.setOnline "A", Op.setOnline "B"]) "A" "B"
      = .error .attributeError := by decide

/-- Claim C2: after any sequence of registry operations from a fresh
registry, connected-set membership is symmetric.  This holds in the
code, though degenerately: the only path of `connect` that would insert
an edge raises `AttributeError` before mutating, so every connected set
in every reachable state (including states left behind by a raising
`set_offline`) is empty, and the equivalence holds with both sides
false. -/
theorem C2_symmetry (N : Nat) (ops : List Op) (A B : String) :
    (Peer.inConnected (runOps (Peer.initState N) ops) A B = true ↔
     Peer.inConnected (runOps (Peer.initState N) ops) B A = true) := by
  have h := runOps_init_allEmpty N ops
  rw [inConnected_of_allEmpty _ h A B, inConnected_of_allEmpty _ h B A]

/-- Claim C3: first, after any operation sequence from a fresh registry
with max order `N`, every online peer has degree at most `N - 1` (in the
code this is degenerate: no edge is ever inserted, so every degree is 0);
second, on any state whatsoever, when both sides are online, distinct and
not already connected but either side is at or above the `N - 1` cap,
`connect` raises the `Too many connections` exception, exactly as the
degree-guard branch of the source prescribes. -/
theorem C3_degree_bound :
    (∀ (N : Nat) (ops : List Op) (id : String) (d : Nat),
        Peer.num_connected (runOps (Peer.initState N) ops) id = .ok d → d ≤ N - 1) ∧
    (∀ (st : Peer.State) (a b : String) (cA cB : Finset String),
        a ≠ b → alookup st.peers a = some cA → alookup st.peers b = some cB →
        b ∉ cA → (st.N - 1 ≤ cA.card ∨ st.N - 1 ≤ cB.card) →
        Peer.connect st a b = .error .tooManyConnections) := by
  constructor
  · intro N ops id d hd
    have h := runOps_init_allEmpty N ops
    unfold Peer.num_connected at hd
    split at hd
    · rename_i c hc
      injection hd with hd1
      rw [← hd1, allEmpty_lookup h hc]
      simp
    · exact Except.noConfusion hd
  · intro st a b cA cB hab hA hB hmem hcard
    unfold Peer.connect
    rw [if_neg hab]
    split
    · rename_i cF cT hF hT
      rw [hA] at hF
      rw [hB] at hT
      cases hF
      cases hT
      rw [if_neg hmem, if_neg (by rintro ⟨h1, h2⟩; rcases hcard with h | h <;> omega)]
    · rename_i hF hT
      rw [hB] at hT
      exact Option.noConfusion hT
    · rename_i hF hT
      rw [hA] at hF
      exact Option.noConfusion hF
    · rename_i hF hT
      rw [hA] at hF
      exact Option.noConfusion hF

/-- Witness for C3 at concrete inputs: degree 0 after bringing `"A"`
online with `N = 3`, and a `Too many connections` failure for
`connect("A", "B")` with `N = 2` where `"A"` already has one
connection. -/
theorem C3_degree_bound_witness :
    (0 : Nat) ≤ 3 - 1 ∧
    Peer.connect { N := 2, peers := [("A", {"C"}), ("B", ∅), ("C", {"A"})] } "A" "B"
      = .error .tooManyConnections := by
  constructor
  · exact C3_degree_bound.1 3 [Op.setOnline "A"] "A" 0 (by decide)
  · exact C3_degree_bound.2 { N := 2, peers := [("A", {"C"}), ("B", ∅), ("C", {"A"})] }
      "A" "B" {"C"} ∅ (by decide) (by decide) (by decide) (by decide)
      (Or.inl (by decide))

/-- Claim C4: `setOffline` is claimed never to fail.  In the code,
`set_offline` pops the id and then calls `set.remove(id)` on every
remaining connected set inside `try ... except ValueError`; a Python
`set.remove` raises `KeyError` (not `ValueError`) when the element is
absent, so the exception escapes.  Evaluated on the state reached by
`set_online("A"); set_online("B")`: `set_offline("A")` pops `"A"` and
then raises `KeyError` at the untouched peer `"B"`, instead of
succeeding. -/
theorem C4_set_offline_raises_keyError :
    Peer.set_offline (runOps (Peer.initState 1024) [Op.setOnline "A", Op.setOnline "B"]) "A"
      = ({ N := 1024, peers := [("B", ∅)] }, some PyExc.keyError) := by decide

/-- Claim C5: for distinct ids, when either id is absent from the
registry, `connect` reports the not-online failure synchronously and
explicitly: it returns `False` (the falsy failure result distinct from
the `True` success result) and leaves the state unchanged, on every
state. -/
theorem C5_not_online (st : Peer.State) (a b : String) (hab : a ≠ b)
    (h : alookup st.peers a = none ∨ alookup st.peers b = none) :
    Peer.connect st a b = .ok (false, st) := by
  unfold Peer.connect
  rw [if_neg hab]
  split
  · rename_i hF hT
    rcases h with hn | hn
    · rw [hF] at hn
      exact Option.noConfusion hn
    · rw [hT] at hn
      exact Option.noConfusion hn
  · rfl
  · rfl
  · rfl

/-- Witness for C5: on the fresh registry neither `"A"` nor `"B"` is
online, and `connect("A", "B")` returns `False` without mutating. -/
theorem C5_not_online_witness :
    Peer.connect (Peer.initState 1024) "A" "B" = .ok (false, Peer.initState 1024) :=
  C5_not_online (Peer.initState 1024) "A" "B" (by decide) (Or.inl (by decide))

/-- Claim C6: `set_online` is idempotent (two calls in a row equal one
call, on every state), and whenever `connect(a, b)` succeeds with `True`
it has left the state unchanged and an immediate second call returns
`True` again on the unchanged state.  In the code a `True` return can
only come from the already-connected early exit, which mutates
nothing. -/
theorem C6_idempotence :
    (∀ (st : Peer.State) (id : String),
        Peer.set_online (Peer.set_online st id) id = Peer.set_online st id) ∧
    (∀ (st st2 : Peer.State) (a b : String),
        Peer.connect st a b = .ok (true, st2) →
        st2 = st ∧ Peer.connect st2 a b = .ok (true, st2)) := by
  constructor
  · intro st id
    by_cases hs : (alookup st.peers id).isSome
    · have h1 : Peer.set_online st id = st := by
        unfold Peer.set_online
        rw [if_pos hs]
      rw [h1, h1]
    · have hn : alookup st.peers id = none := Option.not_isSome_iff_eq_none.mp hs
      have h1 : Peer.set_online st id = { st with peers := st.peers ++ [(id, ∅)] } := by
        unfold Peer.set_online
        rw [if_neg hs]
      have h2 : alookup ({ st with peers := st.peers ++ [(id, ∅)] } : Peer.State).peers id
          = some (∅ : Finset String) :=
        alookup_append_singleton_of_none _ _ _ hn
      rw [h1]
      unfold Peer.set_online
      rw [if_pos (by rw [h2]; rfl)]
  · intro st st2 a b h
    obtain ⟨hst, hab, cF, cT, hF, hT, hmem⟩ := connect_ok_true_elim st st2 a b h
    subst hst
    refine ⟨rfl, ?_⟩
    unfold Peer.connect
    rw [if_neg hab, hF, hT]
    simp only [if_pos hmem]

/-- Witness for C6: the second conjunct applied to a state where `"A"`
and `"B"` are already connected, discharging its hypothesis by
evaluation; the first conjunct applied to the fresh registry. -/
theorem C6_idempotence_witness :
    Peer.set_online (Peer.set_online (Peer.initState 8) "A") "A"
      = Peer.set_online (Peer.initState 8) "A" ∧
    ({ N := 4, peers := [("A", {"B"}), ("B", {"A"})] } : Peer.State)
      = { N := 4, peers := [("A", {"B"}), ("B", {"A"})] } ∧
    Peer.connect { N := 4, peers := [("A", {"B"}), ("B", {"A"})] } "A" "B"
      = .ok (true, { N := 4, peers := [("A", {"B"}), ("B", {"A"})] }) := by
  refine ⟨C6_idempotence.1 (Peer.initState 8) "A", ?_⟩
  exact C6_idempotence.2 _ _ "A" "B" (by decide)

/-- Claim C7: `shortestPath` is claimed to return a minimal-length path
between the endpoints via breadth-first search.  The code of
`Graph_Shortest_Path.find_shortest_path` raises `NameError` on every
input at its second statement `q = deque(start)`, because `deque` is
never imported (`from collections import defaultdict` is the only
import); evaluated here at the call its own documentation comment gives,
`find_shortest_path(graph, "A", "D")` on the built-in example graph,
which that comment expects to produce `["A", "B", "D"]`. -/
theorem C7_find_shortest_path_raises_nameError :
    Graph_Shortest_Path.find_shortest_path Graph_Shortest_Path.exampleGraph "A" "D"
      = .error .nameError := rfl

/-- Claim C8: `breadthFirstTraversal` is claimed to visit exactly the
nodes reachable from the source without assuming dense integer node
identifiers.  The code sizes its visited table as
`[False] * len(self.graph)` (the number of dict keys) and indexes it by
node id, so on the one-edge graph `0 -> 5` (a single key, so a table of
length 1) the traversal from source `0` raises `IndexError` at
`visited[5]` instead of visiting the reachable node 5; non-integer ids
would fail even earlier. -/
theorem C8_BFS_raises_indexError :
    Graph_BFS.BFS (Graph_BFS.addEdge [] 0 5) 0 = .error .indexError := by
  simp [Graph_BFS.BFS, Graph_BFS.bfsLoop, Graph_BFS.defaultGet, Graph_BFS.addEdge,
        Graph_BFS.visitNeighbors, alookup, aupdate]

/-- Claim C9: `sendMessage` is claimed to succeed and hand the payload to
the transport when the two ids are already connected.  The code calls
`self.connect(id_from, id_to, msg)`, but `connect` accepts only the two
ids, so the call raises `TypeError` for every distinct pair before any
delivery; evaluated here on a state where `"A"` and `"B"` are already
connected. -/
theorem C9_send_msg_raises_typeError :
    Peer.send_msg { N := 1024, peers := [("A", {"B"}), ("B", {"A"})] } "A" "B" "hello"
      = .error .typeError := by decide

/-- Claim C10: whenever a construction of the registry succeeds (a first
construction can only succeed as the argumentless `Peer()`, since
`object.__new__` raises `TypeError` on any forwarded argument while no
instance is cached yet), constructing the registry a second time with
the new argument `n2` returns the same shared instance — the same
object id, `Cache_Singleton.__new__` hands back the cached object — but
re-runs `__init__` on it: the peer mapping is reset to empty (every
previously online peer and connection is lost) and `N` is reset to
`n2`. -/
theorem C10_singleton_shared_and_reset (w w1 : Cache_Singleton.World)
    (a1 : Option Nat) (n2 : Nat) (p1 : Cache_Singleton.PeerObj)
    (h : Cache_Singleton.constructPeer w a1 = (w1, .ok p1)) :
    (Cache_Singleton.constructPeer w1 (some n2)).2
      = .ok { objId := p1.objId, st := Peer.initState n2 } := by
  obtain ⟨inst⟩ := w
  cases inst with
  | some p =>
    simp only [Cache_Singleton.constructPeer] at h
    injection h with hw he
    injection he with hp
    subst hw
    subst hp
    rfl
  | none =>
    cases a1 with
    | some n =>
      simp only [Cache_Singleton.constructPeer] at h
      injection h with hw he
      exact Except.noConfusion he
    | none =>
      simp only [Cache_Singleton.constructPeer] at h
      injection h with hw he
      injection he with hp
      subst hw
      subst hp
      rfl

/-- Witness for C10: the argumentless first construction from the empty
world succeeds, and reconstructing with the explicit argument 5 returns
the same object id 0 with the registry reset to `N = 5` and no peers. -/
theorem C10_singleton_shared_and_reset_witness :
    Cache_Singleton.constructPeer { inst := none } none
      = ({ inst := some { objId := 0, st := Peer.initState 1024 } },
         .ok { objId := 0, st := Peer.initState 1024 }) ∧
    (Cache_Singleton.constructPeer
        { inst := some { objId := 0, st := Peer.initState 1024 } } (some 5)).2
      = .ok { objId := 0, st := Peer.initState 5 } := by
  refine ⟨rfl, ?_⟩
  exact C10_singleton_shared_and_reset { inst := none } _ none 5 _ rfl
